import Mathlib

/-!
Verification of the grass cut/regrowth state model of the `grass` repository.

The embedding follows the JavaScript/GLSL source:
* `src/modified-grass.js` — the `Grass` class: `cutGrass`, `regrowGrass`,
  `updateCutAreasUniform`, `checkAndCutGrass`, and the constants
  `MAX_CUT_AREAS = 20`, `REGROWTH_TIME = 10000`, `GROWTH_STAGES = 5`,
  `CUT_RADIUS = 1.0`.
* `src/shaders.js` — the vertex-shader function `getGrowthStage`
  (continuous mode: `clamp(timeSinceCut / uRegrowthTime, 0, 1)`).
* the staged shader variant — `getGrowthStage` with discrete stages:
  `int(timeSinceCut / (uRegrowthTime / uGrowthStages))` divided by
  `uGrowthStages - 1`, clamped.

Numbers are modelled as rationals (exact arithmetic standing in for the
JS/GLSL floats); `Date.now()` is made an explicit `now` parameter; the
`Float32Array` uniform buffer is modelled as a total map `Nat → Rat`
(initially all zeros) whose writes mirror the indexed stores of
`updateCutAreasUniform`.
-/

namespace Grass

/-- Constant `MAX_CUT_AREAS = 20` of `modified-grass.js`. -/
def MAX_CUT_AREAS : Nat := 20

/-- Constant `REGROWTH_TIME = 10000` (ms) of `modified-grass.js`. -/
def REGROWTH_TIME : ℚ := 10000

/-- Constant `GROWTH_STAGES = 5` of `modified-grass.js`. -/
def GROWTH_STAGES : Nat := 5

/-- Constant `CUT_RADIUS = 1.0`, the default cut radius. -/
def CUT_RADIUS : ℚ := 1

/-- One entry of `this.cutAreas`: `{ position: Vector3(x, 0, z), radius, cutTime }`.
`posY` is kept explicit because the transport buffer serializes `position.y`;
`cutGrass` always stores `0` there. -/
structure CutArea where
  posX : ℚ
  posY : ℚ
  posZ : ℚ
  radius : ℚ
  cutTime : ℚ
  deriving DecidableEq, Repr

/-- GLSL `clamp(x, lo, hi) = min(max(x, lo), hi)`. -/
def clampQ (x lo hi : ℚ) : ℚ := min (max x lo) hi

/-- GLSL `int(q)`: conversion from float to int truncates toward zero. -/
def truncQ (q : ℚ) : ℤ := if q < 0 then ⌈q⌉ else ⌊q⌋

/-- The shader's coverage test `distance(position.xz, cutPosition.xz) < cutRadius`.
Over the reals, `sqrt(dx² + dz²) < r` holds iff `0 < r ∧ dx² + dz² < r²`
(see `sqrt_lt_iff_sq_lt` below), so the test is stated square-free over ℚ. -/
def covers (a : CutArea) (px pz : ℚ) : Prop :=
  0 < a.radius ∧ (px - a.posX) ^ 2 + (pz - a.posZ) ^ 2 < a.radius ^ 2

instance (a : CutArea) (px pz : ℚ) : Decidable (covers a px pz) :=
  inferInstanceAs (Decidable (0 < a.radius ∧ (px - a.posX) ^ 2 + (pz - a.posZ) ^ 2 < a.radius ^ 2))

/-- Continuous-mode regrowth progress of one cut area
(`src/shaders.js`, `getGrowthStage` body):
`clamp((uCurrentTime - cutTime) / uRegrowthTime, 0.0, 1.0)`. -/
def growthProgressCont (now R cutTime : ℚ) : ℚ :=
  clampQ ((now - cutTime) / R) 0 1

/-- Staged-mode regrowth progress of one cut area (staged shader variant):
`stageTime = uRegrowthTime / float(uGrowthStages)`,
`currentStage = int(timeSinceCut / stageTime)`,
`clamp(float(currentStage) / float(uGrowthStages - 1), 0.0, 1.0)`. -/
def growthProgressStaged (now R : ℚ) (K : Nat) (cutTime : ℚ) : ℚ :=
  clampQ (((truncQ ((now - cutTime) / (R / (K : ℚ)))) : ℚ) / ((K : ℚ) - 1)) 0 1

/-- One loop iteration of the shader's `getGrowthStage`, abstracted over the
per-area progress formula `p`: skip areas whose disc does not cover the
vertex, otherwise `minGrowthStage = min(minGrowthStage, growthProgress)`. -/
def stageStep (px pz : ℚ) (p : CutArea → ℚ) (m : ℚ) (a : CutArea) : ℚ :=
  if covers a px pz then min m (p a) else m

/-- Shader function `getGrowthStage(position)` of `src/shaders.js` (continuous mode): start at
`minGrowthStage = 1.0` and fold the loop body over the active cut areas. -/
def getGrowthStage (areas : List CutArea) (px pz now R : ℚ) : ℚ :=
  areas.foldl (stageStep px pz (fun a => growthProgressCont now R a.cutTime)) 1

/-- Shader function `getGrowthStage(position)` of the staged shader variant. -/
def getGrowthStageStaged (areas : List CutArea) (px pz now R : ℚ) (K : Nat) : ℚ :=
  areas.foldl (stageStep px pz (fun a => growthProgressStaged now R K a.cutTime)) 1

/-- State of one `Grass` object: field dimensions, the `cutAreas` ledger, the
`uCutAreas` uniform buffer (a zero-initialized `Float32Array(MAX_CUT_AREAS*8)`,
modelled as a total map from slot index to value) and the `uCutAreasCount`
uniform. -/
structure GrassState where
  width : ℚ
  length : ℚ
  cutAreas : List CutArea
  buffer : Nat → ℚ
  count : Nat

/-- A single store `buf[j] = v` into the uniform buffer. -/
def bufSet (buf : Nat → ℚ) (j : Nat) (v : ℚ) : Nat → ℚ :=
  fun k => if k = j then v else buf k

/-- The body of the serialization loop of `updateCutAreasUniform`:
`cutAreasData[i*8] = x; [i*8+1] = y; [i*8+2] = z; [i*8+3] = radius;
[i*8+4] = cutTime;` (slots `i*8+5..7` are padding, left untouched). -/
def writeArea (buf : Nat → ℚ) (i : Nat) (a : CutArea) : Nat → ℚ :=
  bufSet (bufSet (bufSet (bufSet (bufSet buf (i * 8) a.posX)
    (i * 8 + 1) a.posY) (i * 8 + 2) a.posZ) (i * 8 + 3) a.radius)
    (i * 8 + 4) a.cutTime

/-- The serialization loop `for (i = 0; i < cutAreas.length; i++) …`,
unrolled as a recursion over the remaining areas with running index `i`. -/
def writeAreasFrom (buf : Nat → ℚ) (i : Nat) (areas : List CutArea) : Nat → ℚ :=
  match areas with
  | [] => buf
  | a :: rest => writeAreasFrom (writeArea buf i a) (i + 1) rest

/-- Method `updateCutAreasUniform()`: serialize the ledger into the uniform buffer
and set `uCutAreasCount = cutAreas.length`. -/
def updateCutAreasUniform (s : GrassState) : GrassState :=
  { s with buffer := writeAreasFrom s.buffer 0 s.cutAreas,
           count := s.cutAreas.length }

/-- Method `cutGrass(position, radius)` at explicit time `now` (`Date.now()` in the
source): if `cutAreas.length >= MAX_CUT_AREAS` drop the oldest entry
(`shift()`), push `{ position: Vector3(x, 0, z), radius, cutTime: now }`,
then resync the uniform. -/
def cutGrass (s : GrassState) (px pz radius now : ℚ) : GrassState :=
  let areas := if MAX_CUT_AREAS ≤ s.cutAreas.length then s.cutAreas.tail else s.cutAreas
  updateCutAreasUniform { s with cutAreas := areas ++ [⟨px, 0, pz, radius, now⟩] }

/-- Method `regrowGrass()` at explicit time `now`: keep only the entries with
`now - cutTime < REGROWTH_TIME`, then resync the uniform. -/
def regrowGrass (s : GrassState) (now : ℚ) : GrassState :=
  updateCutAreasUniform
    { s with cutAreas := s.cutAreas.filter (fun a => now - a.cutTime < REGROWTH_TIME) }

/-- Method `checkAndCutGrass(position, radius)`: cut and return `true` when
`-width/2 ≤ x ≤ width/2` and `-length/2 ≤ z ≤ length/2`, otherwise leave the
state untouched and return `false`. -/
def checkAndCutGrass (s : GrassState) (px pz radius now : ℚ) : Bool × GrassState :=
  if -(s.width / 2) ≤ px ∧ px ≤ s.width / 2 ∧ -(s.length / 2) ≤ pz ∧ pz ≤ s.length / 2
  then (true, cutGrass s px pz radius now)
  else (false, s)

/-- The state built by the `Grass` constructor: empty ledger, all-zero
uniform buffer, `uCutAreasCount = 0`. -/
def initialState (width length : ℚ) : GrassState :=
  { width := width, length := length, cutAreas := [], buffer := fun _ => 0, count := 0 }

/-- A sequence of `cutGrass` calls, each argument tuple `(px, pz, radius, now)`. -/
def applyCuts (s : GrassState) (cuts : List (ℚ × ℚ × ℚ × ℚ)) : GrassState :=
  cuts.foldl (fun t c => cutGrass t c.1 c.2.1 c.2.2.1 c.2.2.2) s

/-- States reachable from a freshly constructed `Grass` object by the public
mutating operations. -/
inductive Reachable : GrassState → Prop where
  | init (width length : ℚ) : Reachable (initialState width length)
  | cut {s : GrassState} (px pz radius now : ℚ) :
      Reachable s → Reachable (cutGrass s px pz radius now)
  | regrow {s : GrassState} (now : ℚ) :
      Reachable s → Reachable (regrowGrass s now)
  | checkCut {s : GrassState} (px pz radius now : ℚ) :
      Reachable s → Reachable (checkAndCutGrass s px pz radius now).2

/-- Justification of the square-free coverage test: for nonnegative `s`
(standing for `dx² + dz²`), `Real.sqrt s < r ↔ 0 < r ∧ s < r²`. -/
theorem sqrt_lt_iff_sq_lt (s r : ℝ) (hs : 0 ≤ s) :
    Real.sqrt s < r ↔ 0 < r ∧ s < r ^ 2 := by
  constructor
  · intro h
    have hr : 0 < r := lt_of_le_of_lt (Real.sqrt_nonneg s) h
    refine ⟨hr, ?_⟩
    have h0 : 0 ≤ Real.sqrt s := Real.sqrt_nonneg s
    calc s = Real.sqrt s ^ 2 := (Real.sq_sqrt hs).symm
    _ < r ^ 2 := by nlinarith
  · rintro ⟨hr, h⟩
    have : Real.sqrt s < Real.sqrt (r ^ 2) := by
      apply Real.sqrt_lt_sqrt hs h
    rwa [Real.sqrt_sq hr.le] at this

/-! ### Helper lemmas about the evaluator fold -/

theorem stageStep_le (px pz : ℚ) (p : CutArea → ℚ) (m : ℚ) (a : CutArea) :
    stageStep px pz p m a ≤ m := by
  unfold stageStep
  split
  · exact min_le_left _ _
  · exact le_rfl

theorem foldl_stageStep_le_init (px pz : ℚ) (p : CutArea → ℚ) :
    ∀ (l : List CutArea) (m : ℚ), l.foldl (stageStep px pz p) m ≤ m := by
  intro l
  induction l with
  | nil => intro m; exact le_rfl
  | cons a rest ih =>
    intro m
    exact le_trans (ih (stageStep px pz p m a)) (stageStep_le px pz p m a)

theorem foldl_stageStep_mono (px pz : ℚ) (p1 p2 : CutArea → ℚ)
    (hp : ∀ a, p1 a ≤ p2 a) :
    ∀ (l : List CutArea) (m1 m2 : ℚ), m1 ≤ m2 →
      l.foldl (stageStep px pz p1) m1 ≤ l.foldl (stageStep px pz p2) m2 := by
  intro l
  induction l with
  | nil => intro m1 m2 h; exact h
  | cons a rest ih =>
    intro m1 m2 h
    apply ih
    unfold stageStep
    split
    · exact min_le_min h (hp a)
    · exact h

theorem clampQ_eq_one {x : ℚ} (h : 1 ≤ x) : clampQ x 0 1 = 1 := by
  unfold clampQ
  rw [max_eq_left (le_trans zero_le_one h), min_eq_right h]

theorem clampQ_le_one (x : ℚ) : clampQ x 0 1 ≤ 1 := min_le_right _ _

theorem clampQ_mono {x y : ℚ} (lo hi : ℚ) (h : x ≤ y) :
    clampQ x lo hi ≤ clampQ y lo hi :=
  min_le_min (max_le_max h le_rfl) le_rfl

theorem truncQ_mono {x y : ℚ} (h : x ≤ y) : truncQ x ≤ truncQ y := by
  unfold truncQ
  by_cases hx : x < 0
  · by_cases hy : y < 0
    · simp only [hx, hy, if_true]
      exact Int.ceil_le_ceil h
    · simp only [hx, hy, if_true, if_false]
      have h1 : ⌈x⌉ ≤ 0 := by
        rw [show (0 : ℤ) = ((0 : ℤ) : ℤ) from rfl]
        exact Int.ceil_le.mpr (by exact_mod_cast hx.le)
      have h2 : (0 : ℤ) ≤ ⌊y⌋ := Int.floor_nonneg.mpr (not_lt.mp hy)
      exact le_trans h1 h2
  · have hy : ¬ y < 0 := fun hy => hx (lt_of_le_of_lt h hy)
    simp only [hx, hy, if_false]
    exact Int.floor_le_floor h

theorem growthProgressCont_le_one (now R c : ℚ) : growthProgressCont now R c ≤ 1 :=
  clampQ_le_one _

theorem growthProgressCont_eq_one {now R c : ℚ} (hR : 0 < R)
    (h : R ≤ now - c) : growthProgressCont now R c = 1 := by
  unfold growthProgressCont
  exact clampQ_eq_one ((one_le_div hR).mpr h)

theorem growthProgressCont_mono {t1 t2 : ℚ} (R c : ℚ) (hR : 0 < R)
    (h : t1 ≤ t2) : growthProgressCont t1 R c ≤ growthProgressCont t2 R c := by
  unfold growthProgressCont
  apply clampQ_mono
  exact div_le_div_of_nonneg_right (by linarith) hR.le

theorem growthProgressStaged_mono {t1 t2 : ℚ} (R : ℚ) (K : Nat) (c : ℚ)
    (hR : 0 < R) (hK : 2 ≤ K) (h : t1 ≤ t2) :
    growthProgressStaged t1 R K c ≤ growthProgressStaged t2 R K c := by
  unfold growthProgressStaged
  apply clampQ_mono
  have hKQ : (0 : ℚ) < (K : ℚ) := by
    have : (0 : ℚ) < (2 : ℚ) := by norm_num
    calc (0 : ℚ) < 2 := this
    _ ≤ (K : ℚ) := by exact_mod_cast hK
  have hstage : (0 : ℚ) < R / (K : ℚ) := div_pos hR hKQ
  have hK1 : (0 : ℚ) < (K : ℚ) - 1 := by
    have : (2 : ℚ) ≤ (K : ℚ) := by exact_mod_cast hK
    linarith
  apply div_le_div_of_nonneg_right _ hK1.le
  have hdiv : (t1 - c) / (R / (K : ℚ)) ≤ (t2 - c) / (R / (K : ℚ)) :=
    div_le_div_of_nonneg_right (by linarith) hstage.le
  exact_mod_cast truncQ_mono hdiv

theorem foldl_stageStep_one_of (px pz : ℚ) (p : CutArea → ℚ)
    (l : List CutArea) (h : ∀ a ∈ l, covers a px pz → p a = 1) :
    l.foldl (stageStep px pz p) 1 = 1 := by
  induction l with
  | nil => rfl
  | cons a rest ih =>
    have hstep : stageStep px pz p 1 a = 1 := by
      unfold stageStep
      split
      · rename_i hc
        rw [h a (List.mem_cons_self a rest) hc, min_self]
      · rfl
    simp only [List.foldl_cons, hstep]
    exact ih (fun b hb hc => h b (List.mem_cons_of_mem a hb) hc)

theorem foldl_stageStep_eq_foldl_min (px pz : ℚ) (p : CutArea → ℚ) :
    ∀ (l : List CutArea) (m : ℚ),
      l.foldl (stageStep px pz p) m =
        ((l.filter (fun a => decide (covers a px pz))).map p).foldl min m := by
  intro l
  induction l with
  | nil => intro m; rfl
  | cons a rest ih =>
    intro m
    by_cases hc : covers a px pz
    · simp only [List.foldl_cons, List.filter_cons, hc, decide_eq_true_eq, List.map_cons,
        stageStep, if_pos hc]
      exact ih (min m (p a))
    · simp only [List.foldl_cons, List.filter_cons, hc, decide_eq_false_iff_not,
        stageStep, if_neg hc]
      exact ih m

theorem foldl_stageStep_middle (px pz : ℚ) (p : CutArea → ℚ)
    (l1 l2 : List CutArea) (e : CutArea)
    (he : ∀ m : ℚ, m ≤ 1 → stageStep px pz p m e = m) :
    (l1 ++ e :: l2).foldl (stageStep px pz p) 1 =
      (l1 ++ l2).foldl (stageStep px pz p) 1 := by
  rw [List.foldl_append, List.foldl_append, List.foldl_cons]
  congr 1
  exact he _ (foldl_stageStep_le_init px pz p l1 1)

/-! ### Claims about the growth-stage evaluator -/

/-- C1: if no cut event of age below the regrowth duration covers the
position (planar distance below its radius), `getGrowthStage` returns
exactly `1.0`. Covering events whose age has reached the duration clamp to
progress `1` and cannot lower the minimum. -/
theorem getGrowthStage_eq_one_of_no_active_cover
    (areas : List CutArea) (px pz now R : ℚ) (hR : 0 < R)
    (h : ∀ a ∈ areas, now - a.cutTime < R → ¬ covers a px pz) :
    getGrowthStage areas px pz now R = 1 := by
  unfold getGrowthStage
  apply foldl_stageStep_one_of
  intro a ha hc
  by_cases hage : now - a.cutTime < R
  · exact absurd hc (h a ha hage)
  · exact growthProgressCont_eq_one hR (not_lt.mp hage)

/-- Witness for `getGrowthStage_eq_one_of_no_active_cover`: a position
outside a single cut disc evaluates to `1`. -/
theorem getGrowthStage_eq_one_of_no_active_cover_witness :
    getGrowthStage [⟨0, 0, 0, 1, 0⟩] 5 0 100 10000 = 1 :=
  getGrowthStage_eq_one_of_no_active_cover [⟨0, 0, 0, 1, 0⟩] 5 0 100 10000
    (by norm_num)
    (by
      intro a ha _
      simp only [List.mem_singleton] at ha
      subst ha
      intro hcov
      rcases hcov with ⟨_, hlt⟩
      norm_num at hlt)

/-- C2: `getGrowthStage` is the minimum (never an average) of the progress
values of the covering cut events, folded from `1.0`; in particular two
covering cuts with progress `0.3` and `0.7` yield `0.3`. -/
theorem getGrowthStage_min_of_covering :
    (∀ (areas : List CutArea) (px pz now R : ℚ),
      getGrowthStage areas px pz now R =
        ((areas.filter (fun a => decide (covers a px pz))).map
          (fun a => growthProgressCont now R a.cutTime)).foldl min 1) ∧
    getGrowthStage [⟨0, 0, 0, 1, 7000⟩, ⟨0, 0, 0, 1, 3000⟩] 0 0 10000 10000 = 3 / 10 := by
  constructor
  · intro areas px pz now R
    exact foldl_stageStep_eq_foldl_min px pz _ areas 1
  · exact of_decide_eq_true (by with_unfolding_all rfl)

/-- C6: for a fixed ledger and position, the growth stage is monotonically
non-decreasing in the query time `now`, in continuous mode and in staged
mode (with positive regrowth duration and at least two stages, as
configured: `REGROWTH_TIME = 10000`, `GROWTH_STAGES = 5`). -/
theorem getGrowthStage_monotone_in_now :
    (∀ (areas : List CutArea) (px pz R t1 t2 : ℚ), 0 < R → t1 ≤ t2 →
      getGrowthStage areas px pz t1 R ≤ getGrowthStage areas px pz t2 R) ∧
    (∀ (areas : List CutArea) (px pz R t1 t2 : ℚ) (K : Nat),
      0 < R → 2 ≤ K → t1 ≤ t2 →
      getGrowthStageStaged areas px pz t1 R K ≤ getGrowthStageStaged areas px pz t2 R K) := by
  constructor
  · intro areas px pz R t1 t2 hR h
    unfold getGrowthStage
    exact foldl_stageStep_mono px pz _ _
      (fun a => growthProgressCont_mono R a.cutTime hR h) areas 1 1 le_rfl
  · intro areas px pz R t1 t2 K hR hK h
    unfold getGrowthStageStaged
    exact foldl_stageStep_mono px pz _ _
      (fun a => growthProgressStaged_mono R K a.cutTime hR hK h) areas 1 1 le_rfl

/-- Witness for `getGrowthStage_monotone_in_now` at a covered position and
times 1000 ≤ 2000. -/
theorem getGrowthStage_monotone_in_now_witness :
    getGrowthStage [⟨0, 0, 0, 1, 0⟩] 0 0 1000 10000 ≤
      getGrowthStage [⟨0, 0, 0, 1, 0⟩] 0 0 2000 10000 ∧
    getGrowthStageStaged [⟨0, 0, 0, 1, 0⟩] 0 0 1000 10000 5 ≤
      getGrowthStageStaged [⟨0, 0, 0, 1, 0⟩] 0 0 2000 10000 5 :=
  ⟨getGrowthStage_monotone_in_now.1 [⟨0, 0, 0, 1, 0⟩] 0 0 10000 1000 2000
      (by norm_num) (by norm_num),
   getGrowthStage_monotone_in_now.2 [⟨0, 0, 0, 1, 0⟩] 0 0 10000 1000 2000 5
      (by norm_num) (by norm_num) (by norm_num)⟩

/-- C7: a cut event whose age has reached the regrowth duration is inert:
for every position, evaluating with the expired entry still in the ledger
equals evaluating with it removed. -/
theorem getGrowthStage_expired_inert
    (l1 l2 : List CutArea) (e : CutArea) (px pz now R : ℚ)
    (hR : 0 < R) (he : R ≤ now - e.cutTime) :
    getGrowthStage (l1 ++ e :: l2) px pz now R =
      getGrowthStage (l1 ++ l2) px pz now R := by
  unfold getGrowthStage
  apply foldl_stageStep_middle
  intro m hm
  unfold stageStep
  split
  · show m ⊓ growthProgressCont now R e.cutTime = m
    rw [growthProgressCont_eq_one hR he, min_eq_left hm]
  · rfl

/-- Witness for `getGrowthStage_expired_inert`: an expired covering cut
(age 10000 = regrowth duration) does not change the evaluation. -/
theorem getGrowthStage_expired_inert_witness :
    getGrowthStage ([⟨0, 0, 0, 1, 5000⟩] ++ ⟨0, 0, 0, 2, 0⟩ :: []) 0 0 10000 10000 =
      getGrowthStage ([⟨0, 0, 0, 1, 5000⟩] ++ []) 0 0 10000 10000 :=
  getGrowthStage_expired_inert [⟨0, 0, 0, 1, 5000⟩] [] ⟨0, 0, 0, 2, 0⟩ 0 0 10000 10000
    (by norm_num) (by norm_num)

/-! ### Claims about the ledger operations -/

theorem cutGrass_cutAreas (s : GrassState) (px pz radius now : ℚ) :
    (cutGrass s px pz radius now).cutAreas =
      (if MAX_CUT_AREAS ≤ s.cutAreas.length then s.cutAreas.tail else s.cutAreas)
        ++ [⟨px, 0, pz, radius, now⟩] := rfl

theorem applyCuts_cons (s : GrassState) (c : ℚ × ℚ × ℚ × ℚ)
    (rest : List (ℚ × ℚ × ℚ × ℚ)) :
    applyCuts s (c :: rest) = applyCuts (cutGrass s c.1 c.2.1 c.2.2.1 c.2.2.2) rest := rfl

/-- C3: starting from the empty ledger, any sequence of `cutGrass` calls
leaves at most `MAX_CUT_AREAS = 20` entries, and a single `cutGrass` call
preserves the capacity bound. -/
theorem cutGrass_length_le_capacity :
    (∀ (width length : ℚ) (cuts : List (ℚ × ℚ × ℚ × ℚ)),
      (applyCuts (initialState width length) cuts).cutAreas.length ≤ MAX_CUT_AREAS) ∧
    (∀ (s : GrassState) (px pz radius now : ℚ),
      s.cutAreas.length ≤ MAX_CUT_AREAS →
      (cutGrass s px pz radius now).cutAreas.length ≤ MAX_CUT_AREAS) := by
  have hstep : ∀ (s : GrassState) (px pz radius now : ℚ),
      s.cutAreas.length ≤ MAX_CUT_AREAS →
      (cutGrass s px pz radius now).cutAreas.length ≤ MAX_CUT_AREAS := by
    intro s px pz radius now h
    rw [cutGrass_cutAreas, List.length_append]
    by_cases hfull : MAX_CUT_AREAS ≤ s.cutAreas.length
    · rw [if_pos hfull]
      simp only [List.length_tail, List.length_singleton]
      unfold MAX_CUT_AREAS at *
      omega
    · rw [if_neg hfull]
      simp only [List.length_singleton]
      unfold MAX_CUT_AREAS at *
      omega
  have hfold : ∀ (cuts : List (ℚ × ℚ × ℚ × ℚ)) (s : GrassState),
      s.cutAreas.length ≤ MAX_CUT_AREAS →
      (applyCuts s cuts).cutAreas.length ≤ MAX_CUT_AREAS := by
    intro cuts
    induction cuts with
    | nil => intro s h; exact h
    | cons c rest ih =>
      intro s h
      rw [applyCuts_cons]
      exact ih _ (hstep s c.1 c.2.1 c.2.2.1 c.2.2.2 h)
  refine ⟨fun width length cuts => hfold cuts _ ?_, hstep⟩
  simp [initialState]

/-- Witness for `cutGrass_length_le_capacity`: 21 cuts from empty stay at
20 entries, and one `cutGrass` on a short ledger stays within capacity. -/
theorem cutGrass_length_le_capacity_witness :
    (applyCuts (initialState 100 100)
      ((List.range 21).map (fun i => ((i : ℚ), 0, 1, (i : ℚ))))).cutAreas.length
        ≤ MAX_CUT_AREAS ∧
    (cutGrass (initialState 100 100) 0 0 1 0).cutAreas.length ≤ MAX_CUT_AREAS :=
  ⟨cutGrass_length_le_capacity.1 100 100 _,
   cutGrass_length_le_capacity.2 (initialState 100 100) 0 0 1 0
     (by simp [initialState, MAX_CUT_AREAS])⟩

/-- The C4 scenario: 25 cuts with non-overlapping positions `x = 3·i`
(radius 1) and strictly increasing timestamps `i = 0, …, 24`. -/
def capacityScenario : List (ℚ × ℚ × ℚ × ℚ) :=
  (List.range 25).map (fun i => ((3 * i : ℚ), 0, 1, (i : ℚ)))

/-- C4 counterexample: after 25 `cutGrass` calls against capacity 20, the
ledger does not retain exactly the 5 most recent events — it holds 20
entries, not 5. -/
theorem capacityScenario_not_five_retained :
    ¬ ((applyCuts (initialState 100 100) capacityScenario).cutAreas.length = 5) :=
  of_decide_eq_true (by with_unfolding_all rfl)

/-- C4 amended: the final ledger retains exactly the `MAX_CUT_AREAS = 20`
most recent of the 25 events, in insertion order (timestamps 5, …, 24);
the 5 oldest were evicted first (FIFO). -/
theorem capacityScenario_last_twenty_retained :
    (applyCuts (initialState 100 100) capacityScenario).cutAreas =
      (List.range 20).map
        (fun i => ⟨3 * ((i : ℚ) + 5), 0, 0, 1, ((i : ℚ) + 5)⟩) ∧
    (applyCuts (initialState 100 100) capacityScenario).cutAreas.length = 20 :=
  of_decide_eq_true (by with_unfolding_all rfl)

/-- C5 counterexample: in staged mode (`REGROWTH_TIME = 10000`,
`GROWTH_STAGES = 5`), a position covered by a cut at `t = 0` queried at
`now = 2000` does not evaluate to `0`: the stage index is already
`int(2000 / 2000) = 1`, giving progress `1/4`. -/
theorem stagedStage_at_2000_ne_zero :
    getGrowthStageStaged [⟨0, 0, 0, 1, 0⟩] 0 0 2000 10000 5 ≠ 0 :=
  of_decide_eq_true (by with_unfolding_all rfl)

/-- C5 amended: with `regrowthDuration = 10000` and `stageCount = 5`, a
position covered by a single cut at `t = 0` queried at
`now = 2000, 4000, 6000, 8000, 10000` yields the staged progress values
`1/4, 1/2, 3/4, 1, 1` (the claim's list `0, 1/4, 1/2, 3/4, 1` is shifted
by one stage: `stageIndex = floor(age / (R / K))` is already `1` at
`age = 2000`, and the value `5/4` at `age = 10000` clamps to `1`). -/
theorem stagedStage_values :
    getGrowthStageStaged [⟨0, 0, 0, 1, 0⟩] 0 0 2000 10000 5 = 1 / 4 ∧
    getGrowthStageStaged [⟨0, 0, 0, 1, 0⟩] 0 0 4000 10000 5 = 1 / 2 ∧
    getGrowthStageStaged [⟨0, 0, 0, 1, 0⟩] 0 0 6000 10000 5 = 3 / 4 ∧
    getGrowthStageStaged [⟨0, 0, 0, 1, 0⟩] 0 0 8000 10000 5 = 1 ∧
    getGrowthStageStaged [⟨0, 0, 0, 1, 0⟩] 0 0 10000 10000 5 = 1 :=
  of_decide_eq_true (by with_unfolding_all rfl)

/-- C8: `checkAndCutGrass` returns `true` exactly when the position passes
the inclusive half-width/half-length bounds test; inside the bounds it
appends exactly one new event (evicting the oldest first when full), and
outside the bounds it is a silent no-op leaving the state (hence the
ledger length) unchanged. -/
theorem checkAndCutGrass_bounds (s : GrassState) (px pz radius now : ℚ) :
    ((checkAndCutGrass s px pz radius now).1 = true ↔
      (-(s.width / 2) ≤ px ∧ px ≤ s.width / 2 ∧
        -(s.length / 2) ≤ pz ∧ pz ≤ s.length / 2)) ∧
    ((-(s.width / 2) ≤ px ∧ px ≤ s.width / 2 ∧
        -(s.length / 2) ≤ pz ∧ pz ≤ s.length / 2) →
      (checkAndCutGrass s px pz radius now).2.cutAreas =
        (if MAX_CUT_AREAS ≤ s.cutAreas.length then s.cutAreas.tail else s.cutAreas)
          ++ [⟨px, 0, pz, radius, now⟩]) ∧
    (¬ (-(s.width / 2) ≤ px ∧ px ≤ s.width / 2 ∧
        -(s.length / 2) ≤ pz ∧ pz ≤ s.length / 2) →
      (checkAndCutGrass s px pz radius now).2 = s) := by
  unfold checkAndCutGrass
  by_cases h : -(s.width / 2) ≤ px ∧ px ≤ s.width / 2 ∧
      -(s.length / 2) ≤ pz ∧ pz ≤ s.length / 2
  · rw [if_pos h]
    exact ⟨by simp [h], fun _ => cutGrass_cutAreas s px pz radius now, fun hn => absurd h hn⟩
  · rw [if_neg h]
    exact ⟨by simp [h], fun hy => absurd hy h, fun _ => rfl⟩

/-- Witness for `checkAndCutGrass_bounds`: on a 10×10 field, a cut at
`(20, 0)` is rejected (state unchanged) and a cut at `(1, 1)` is accepted. -/
theorem checkAndCutGrass_bounds_witness :
    (checkAndCutGrass (initialState 10 10) 20 0 1 0).2 = initialState 10 10 ∧
    ((checkAndCutGrass (initialState 10 10) 1 1 1 0).1 = true ↔
      (-((initialState 10 10).width / 2) ≤ 1 ∧ (1 : ℚ) ≤ (initialState 10 10).width / 2 ∧
        -((initialState 10 10).length / 2) ≤ 1 ∧ (1 : ℚ) ≤ (initialState 10 10).length / 2)) :=
  ⟨(checkAndCutGrass_bounds (initialState 10 10) 20 0 1 0).2.2
      (by simp only [initialState]; norm_num),
   (checkAndCutGrass_bounds (initialState 10 10) 1 1 1 0).1⟩

/-- C9 counterexample: a cut request with radius `0` at an in-bounds
position is not rejected — the ledger changes (one event with radius `0`
is appended). -/
theorem checkAndCutGrass_zero_radius_appends :
    ¬ ((checkAndCutGrass (initialState 100 100) 0 0 0 0).2.cutAreas =
        (initialState 100 100).cutAreas) :=
  of_decide_eq_true (by with_unfolding_all rfl)

/-- C9 amended: the code performs no radius validation: a `cutGrass` call
with radius ≤ 0 appends its event like any other (so the ledger is NOT
left unchanged); however such an event can never affect the growth-stage
evaluation, because the strict test `distance < radius` never passes for a
non-positive radius. -/
theorem cutGrass_nonpositive_radius (s : GrassState) (px pz radius now : ℚ)
    (hr : radius ≤ 0) :
    (cutGrass s px pz radius now).cutAreas =
      (if MAX_CUT_AREAS ≤ s.cutAreas.length then s.cutAreas.tail else s.cutAreas)
        ++ [⟨px, 0, pz, radius, now⟩] ∧
    (∀ (l1 l2 : List CutArea) (qx qz n R : ℚ),
      getGrowthStage (l1 ++ ⟨px, 0, pz, radius, now⟩ :: l2) qx qz n R =
        getGrowthStage (l1 ++ l2) qx qz n R) := by
  refine ⟨cutGrass_cutAreas s px pz radius now, ?_⟩
  intro l1 l2 qx qz n R
  unfold getGrowthStage
  apply foldl_stageStep_middle
  intro m _
  unfold stageStep
  rw [if_neg]
  intro hcov
  exact absurd hcov.1 (not_lt.mpr hr)

/-- Witness for `cutGrass_nonpositive_radius` at radius `0` on a fresh
field. -/
theorem cutGrass_nonpositive_radius_witness :
    (cutGrass (initialState 100 100) 1 2 0 3).cutAreas =
      (if MAX_CUT_AREAS ≤ (initialState 100 100).cutAreas.length
        then (initialState 100 100).cutAreas.tail
        else (initialState 100 100).cutAreas)
        ++ [⟨1, 0, 2, 0, 3⟩] ∧
    (∀ (l1 l2 : List CutArea) (qx qz n R : ℚ),
      getGrowthStage (l1 ++ ⟨1, 0, 2, 0, 3⟩ :: l2) qx qz n R =
        getGrowthStage (l1 ++ l2) qx qz n R) :=
  cutGrass_nonpositive_radius (initialState 100 100) 1 2 0 3 le_rfl

/-! ### The transport buffer -/

/-- The 5 written slots of record `i` of the transport buffer hold the
fields of cut area `a`. -/
def recordOk (buf : Nat → ℚ) (i : Nat) (a : CutArea) : Prop :=
  buf (i * 8) = a.posX ∧ buf (i * 8 + 1) = a.posY ∧ buf (i * 8 + 2) = a.posZ ∧
    buf (i * 8 + 3) = a.radius ∧ buf (i * 8 + 4) = a.cutTime

theorem writeArea_apply_lt (buf : Nat → ℚ) (i : Nat) (a : CutArea) (j : Nat)
    (h : j < i * 8) : writeArea buf i a j = buf j := by
  simp only [writeArea, bufSet]
  rw [if_neg (by omega), if_neg (by omega), if_neg (by omega),
    if_neg (by omega), if_neg (by omega)]

theorem writeArea_apply_mod (buf : Nat → ℚ) (i : Nat) (a : CutArea) (j : Nat)
    (h : 5 ≤ j % 8) : writeArea buf i a j = buf j := by
  simp only [writeArea, bufSet]
  rw [if_neg (by omega), if_neg (by omega), if_neg (by omega),
    if_neg (by omega), if_neg (by omega)]

theorem writeArea_recordOk (buf : Nat → ℚ) (i : Nat) (a : CutArea) :
    recordOk (writeArea buf i a) i a := by
  unfold recordOk
  simp only [writeArea, bufSet]
  refine ⟨?_, ?_, ?_, ?_, ?_⟩
  · rw [if_neg (by omega), if_neg (by omega), if_neg (by omega),
      if_neg (by omega)]
    simp
  · rw [if_neg (by omega), if_neg (by omega), if_neg (by omega)]
    simp
  · rw [if_neg (by omega), if_neg (by omega)]
    simp
  · rw [if_neg (by omega)]
    simp
  · simp

theorem writeAreasFrom_apply_lt :
    ∀ (areas : List CutArea) (buf : Nat → ℚ) (i j : Nat), j < i * 8 →
      writeAreasFrom buf i areas j = buf j := by
  intro areas
  induction areas with
  | nil => intro buf i j _; rfl
  | cons a rest ih =>
    intro buf i j h
    show writeAreasFrom (writeArea buf i a) (i + 1) rest j = buf j
    rw [ih _ _ _ (by omega), writeArea_apply_lt _ _ _ _ h]

theorem writeAreasFrom_apply_mod :
    ∀ (areas : List CutArea) (buf : Nat → ℚ) (i j : Nat), 5 ≤ j % 8 →
      writeAreasFrom buf i areas j = buf j := by
  intro areas
  induction areas with
  | nil => intro buf i j _; rfl
  | cons a rest ih =>
    intro buf i j h
    show writeAreasFrom (writeArea buf i a) (i + 1) rest j = buf j
    rw [ih _ _ _ h, writeArea_apply_mod _ _ _ _ h]

theorem writeAreasFrom_recordOk :
    ∀ (areas : List CutArea) (k : Nat), k < areas.length →
      ∀ (buf : Nat → ℚ) (i : Nat),
        recordOk (writeAreasFrom buf i areas) (i + k)
          (areas.getD k ⟨0, 0, 0, 0, 0⟩) := by
  intro areas
  induction areas with
  | nil => intro k hk; simp at hk
  | cons a rest ih =>
    intro k hk buf i
    cases k with
    | zero =>
      show recordOk (writeAreasFrom (writeArea buf i a) (i + 1) rest) (i + 0) _
      simp only [Nat.add_zero, List.getD_cons_zero]
      obtain ⟨h0, h1, h2, h3, h4⟩ := writeArea_recordOk buf i a
      refine ⟨?_, ?_, ?_, ?_, ?_⟩ <;>
        rw [writeAreasFrom_apply_lt rest _ _ _ (by omega)] <;> assumption
    | succ k' =>
      show recordOk (writeAreasFrom (writeArea buf i a) (i + 1) rest) (i + (k' + 1)) _
      have hidx : i + (k' + 1) = (i + 1) + k' := by omega
      rw [hidx, List.getD_cons_succ]
      exact ih k' (by simpa using hk) (writeArea buf i a) (i + 1)

/-- The uniform state is in sync with the ledger: count matches, every
ledger entry has its record in the buffer (with `y = 0`), and the padding
slots (index ≡ 5, 6, 7 mod 8) are zero. -/
def Synced (s : GrassState) : Prop :=
  s.count = s.cutAreas.length ∧
  (∀ a ∈ s.cutAreas, a.posY = 0) ∧
  (∀ i, i < s.cutAreas.length →
    recordOk s.buffer i (s.cutAreas.getD i ⟨0, 0, 0, 0, 0⟩)) ∧
  (∀ j, 5 ≤ j % 8 → s.buffer j = 0)

theorem synced_updateCutAreasUniform (s : GrassState)
    (hpad : ∀ j, 5 ≤ j % 8 → s.buffer j = 0)
    (hy : ∀ a ∈ s.cutAreas, a.posY = 0) :
    Synced (updateCutAreasUniform s) := by
  refine ⟨rfl, hy, ?_, ?_⟩
  · intro i hi
    have h := writeAreasFrom_recordOk s.cutAreas i hi s.buffer 0
    simpa using h
  · intro j hj
    show writeAreasFrom s.buffer 0 s.cutAreas j = 0
    rw [writeAreasFrom_apply_mod _ _ _ _ hj]
    exact hpad j hj

theorem synced_cutGrass (s : GrassState) (px pz radius now : ℚ)
    (h : Synced s) : Synced (cutGrass s px pz radius now) := by
  apply synced_updateCutAreasUniform
  · exact h.2.2.2
  · intro a ha
    rcases List.mem_append.mp ha with hmem | hmem
    · by_cases hfull : MAX_CUT_AREAS ≤ s.cutAreas.length
      · rw [if_pos hfull] at hmem
        exact h.2.1 a (List.mem_of_mem_tail hmem)
      · rw [if_neg hfull] at hmem
        exact h.2.1 a hmem
    · rcases List.mem_singleton.mp hmem with rfl
      rfl

theorem synced_regrowGrass (s : GrassState) (now : ℚ)
    (h : Synced s) : Synced (regrowGrass s now) := by
  apply synced_updateCutAreasUniform
  · exact h.2.2.2
  · intro a ha
    exact h.2.1 a (List.mem_of_mem_filter ha)

theorem synced_reachable {s : GrassState} (h : Reachable s) : Synced s := by
  induction h with
  | init width length =>
    refine ⟨rfl, ?_, ?_, ?_⟩
    · intro a ha; simp [initialState] at ha
    · intro i hi; simp [initialState] at hi
    · intro j _; rfl
  | cut px pz radius now _ ih => exact synced_cutGrass _ px pz radius now ih
  | regrow now _ ih => exact synced_regrowGrass _ now ih
  | checkCut px pz radius now _ ih =>
    rename_i t _
    unfold checkAndCutGrass
    by_cases hb : -(t.width / 2) ≤ px ∧ px ≤ t.width / 2 ∧
        -(t.length / 2) ≤ pz ∧ pz ≤ t.length / 2
    · rw [if_pos hb]
      exact synced_cutGrass _ px pz radius now ih
    · rw [if_neg hb]
      exact ih

/-- C10 counterexample: record a cut at `x = 1` (t = 0) and one at `x = 5`
(t = 1), then prune at `now = 10000` (the first expires). The active count
is 1, yet slot 8 — beyond `8·activeCount` — still holds the stale value
`5` from the earlier serialization: trailing slots are not re-zeroed. -/
theorem transportBuffer_stale_slot :
    (regrowGrass (cutGrass (cutGrass (initialState 100 100) 1 0 1 0) 5 0 1 1)
        10000).count = 1 ∧
    (regrowGrass (cutGrass (cutGrass (initialState 100 100) 1 0 1 0) 5 0 1 1)
        10000).buffer 8 = 5 :=
  of_decide_eq_true (by with_unfolding_all rfl)

/-- C10 amended: in every reachable state, the transport buffer holds for
each ledger index `i < activeCount` the 8-slot record
`(x, 0, z, radius, cutTimestamp, 0, 0, 0)` at offset `8·i`, and the active
count equals the ledger length. (The original claim's further statement
that every slot at index `≥ 8·activeCount` is zero is false: slots of
evicted or pruned entries keep their last written values and are only
masked by the count — see `transportBuffer_stale_slot`.) -/
theorem transportBuffer_sync (s : GrassState) (h : Reachable s) :
    s.count = s.cutAreas.length ∧
    (∀ i, i < s.cutAreas.length →
      s.buffer (i * 8) = (s.cutAreas.getD i ⟨0, 0, 0, 0, 0⟩).posX ∧
      s.buffer (i * 8 + 1) = 0 ∧
      s.buffer (i * 8 + 2) = (s.cutAreas.getD i ⟨0, 0, 0, 0, 0⟩).posZ ∧
      s.buffer (i * 8 + 3) = (s.cutAreas.getD i ⟨0, 0, 0, 0, 0⟩).radius ∧
      s.buffer (i * 8 + 4) = (s.cutAreas.getD i ⟨0, 0, 0, 0, 0⟩).cutTime ∧
      s.buffer (i * 8 + 5) = 0 ∧ s.buffer (i * 8 + 6) = 0 ∧
      s.buffer (i * 8 + 7) = 0) := by
  obtain ⟨hc, hy, hrec, hpad⟩ := synced_reachable h
  refine ⟨hc, ?_⟩
  intro i hi
  obtain ⟨h0, h1, h2, h3, h4⟩ := hrec i hi
  have hyi : (s.cutAreas.getD i ⟨0, 0, 0, 0, 0⟩).posY = 0 := by
    apply hy
    rw [List.getD_eq_getElem s.cutAreas _ hi]
    exact List.getElem_mem hi
  refine ⟨h0, by rw [h1, hyi], h2, h3, h4, ?_, ?_, ?_⟩ <;>
    exact hpad _ (by omega)

/-- Witness for `transportBuffer_sync` at the reachable state with one
recorded cut. -/
theorem transportBuffer_sync_witness :
    (cutGrass (initialState 100 100) 1 0 1 0).count =
      (cutGrass (initialState 100 100) 1 0 1 0).cutAreas.length ∧
    (∀ i, i < (cutGrass (initialState 100 100) 1 0 1 0).cutAreas.length →
      (cutGrass (initialState 100 100) 1 0 1 0).buffer (i * 8) =
        ((cutGrass (initialState 100 100) 1 0 1 0).cutAreas.getD i
          ⟨0, 0, 0, 0, 0⟩).posX ∧
      (cutGrass (initialState 100 100) 1 0 1 0).buffer (i * 8 + 1) = 0 ∧
      (cutGrass (initialState 100 100) 1 0 1 0).buffer (i * 8 + 2) =
        ((cutGrass (initialState 100 100) 1 0 1 0).cutAreas.getD i
          ⟨0, 0, 0, 0, 0⟩).posZ ∧
      (cutGrass (initialState 100 100) 1 0 1 0).buffer (i * 8 + 3) =
        ((cutGrass (initialState 100 100) 1 0 1 0).cutAreas.getD i
          ⟨0, 0, 0, 0, 0⟩).radius ∧
      (cutGrass (initialState 100 100) 1 0 1 0).buffer (i * 8 + 4) =
        ((cutGrass (initialState 100 100) 1 0 1 0).cutAreas.getD i
          ⟨0, 0, 0, 0, 0⟩).cutTime ∧
      (cutGrass (initialState 100 100) 1 0 1 0).buffer (i * 8 + 5) = 0 ∧
      (cutGrass (initialState 100 100) 1 0 1 0).buffer (i * 8 + 6) = 0 ∧
      (cutGrass (initialState 100 100) 1 0 1 0).buffer (i * 8 + 7) = 0) :=
  transportBuffer_sync (cutGrass (initialState 100 100) 1 0 1 0)
    (Reachable.cut 1 0 1 0 (Reachable.init 100 100))

end Grass
